import Mathlib

/-!
Verification development for the `neutron420/compiler` repository.

The repository ships a Next.js front-end (`src/web`), shared React
components (`src/unnamed/part_003`: `LanguageSelector`, `OutputPanel`),
and a Prisma/PostgreSQL schema
(`src/db/prisma/migrations/20250824180401_changes_code_storing/migration.sql`
together with the later `remove_auth` migration).  The compile/execute
engine itself (lexer, parser, interpreter, dispatcher, sandbox
supervisor, result encoder) is reached over `POST /compile` but its code
is not part of the repository; where a property is decided by that
engine, the definitions below are modelled from the specification and
are marked `Modelled from the spec:` in their doc comments.  Everything
else is translated directly from the files named above.
-/

/-! ## Persisted enums, from
`src/db/prisma/migrations/20250824180401_changes_code_storing/migration.sql` -/

/-- The `ExecutionStatus` PostgreSQL enum:
`CREATE TYPE "ExecutionStatus" AS ENUM
('PENDING', 'SUCCESS', 'ERROR', 'TIMEOUT', 'MEMORY_LIMIT')`. -/
inductive ExecutionStatus where
  | PENDING
  | SUCCESS
  | ERROR
  | TIMEOUT
  | MEMORY_LIMIT
deriving DecidableEq, Repr

/-- The `ErrorType` PostgreSQL enum:
`CREATE TYPE "ErrorType" AS ENUM
('LEXER_ERROR', 'PARSER_ERROR', 'RUNTIME_ERROR', 'SYSTEM_ERROR', 'API_ERROR')`. -/
inductive ErrorType where
  | LEXER_ERROR
  | PARSER_ERROR
  | RUNTIME_ERROR
  | SYSTEM_ERROR
  | API_ERROR
deriving DecidableEq, Repr

/-- The five `ExecutionStatus` enum labels, in declaration order. -/
def executionStatusValues : List ExecutionStatus :=
  [.PENDING, .SUCCESS, .ERROR, .TIMEOUT, .MEMORY_LIMIT]

/-- The five `ErrorType` enum labels, in declaration order. -/
def errorTypeValues : List ErrorType :=
  [.LEXER_ERROR, .PARSER_ERROR, .RUNTIME_ERROR, .SYSTEM_ERROR, .API_ERROR]

/-- A row of the `executions` table after both migrations: the
`changes_code_storing` migration creates it with `status` of enum type
`ExecutionStatus` and nullable `result`/`error` text, and the
`remove_auth`-era migration renames the timing columns to
`execution_time_ms`/`memory_usage` and adds
`language TEXT NOT NULL DEFAULT 'custom'`. -/
structure ExecutionRecord where
  id : String
  programId : Option String
  code : String
  result : Option String
  error : Option String
  status : ExecutionStatus
  execution_time_ms : Option Int
  memory_usage : Option Int
  language : String

/-- A row of the `error_logs` table: `errorType` has enum type
`ErrorType` and is `NOT NULL`. -/
structure ErrorLogRecord where
  id : String
  errorType : ErrorType
  message : String
  stackTrace : Option String
  code : Option String
  resolved : Bool

/-- The SQL column default `language TEXT NOT NULL DEFAULT 'custom'` on
`executions`: a row inserted with no language value stores `"custom"`. -/
def executionLanguageColumn (provided : Option String) : String :=
  provided.getD "custom"

/-! ## Language selector, from `src/unnamed/part_003` (`LanguageSelector`) -/

/-- The keys of the `languageOptions` object
(`LanguageKey = keyof typeof languageOptions`). -/
inductive LanguageKey where
  | custom
  | rust
  | python
  | c
deriving DecidableEq, Repr

/-- One entry of the `languageOptions` object. -/
structure LanguageOption where
  name : String
  editorLanguage : String
deriving DecidableEq, Repr

/-- The `languageOptions` object of `src/unnamed/part_003`. -/
def languageOptions : LanguageKey → LanguageOption
  | .custom => ⟨"Custom", "javascript"⟩
  | .rust => ⟨"Rust", "rust"⟩
  | .python => ⟨"Python", "python"⟩
  | .c => ⟨"C", "c"⟩

/-- The string form of a `LanguageKey`, as serialized into the request
body by `handleSubmit` (the TypeScript key itself). -/
def LanguageKey.keyString : LanguageKey → String
  | .custom => "custom"
  | .rust => "rust"
  | .python => "python"
  | .c => "c"

/-- The language selectors the engine accepts, which are exactly the
keys of `languageOptions`. -/
def supportedLanguageKeys : List String :=
  ["custom", "rust", "python", "c"]

/-! ## Compiler page, from `src/web/app/compiler/page.tsx` -/

/-- The `starterCode` record of `page.tsx`, one starter program per
language key (braces written with hex escapes). -/
def starterCode : LanguageKey → String
  | .custom =>
      "// Welcome to the Custom Language!\nfn fibonacci(n) \x7b\n  if (n <= 1) \x7b\n    return n;\n  \x7d\n  return fibonacci(n - 1) + fibonacci(n - 2);\n\x7d\n\nlet result = fibonacci(10);\nprintln(\"Fibonacci(10) is:\", result);\n"
  | .rust =>
      "fn main() \x7b\n    println!(\"Hello, world from Rust!\");\n\x7d"
  | .python =>
      "print(\"Hello, world from Python!\")"
  | .c =>
      "#include <stdio.h>\n\nint main() \x7b\n    printf(\"Hello, world from C!\\n\");\n    return 0;\n\x7d"

/-- The React state of `CompilerPage`: the six `useState` hooks of
`page.tsx`. -/
structure PageState where
  code : String
  selectedLanguage : LanguageKey
  output : Option String
  error : Option String
  isLoading : Bool
  executionTime : Option Int
deriving Repr

/-- The `handleLanguageChange` handler of `page.tsx`: it stores the new
key, replaces the editor contents with that language's starter code, and
resets `output`, `error` and `executionTime` to `null`.  It does not
touch `isLoading`. -/
def handleLanguageChange (s : PageState) (langKey : LanguageKey) : PageState :=
  { s with
    selectedLanguage := langKey
    code := starterCode langKey
    output := none
    error := none
    executionTime := none }

/-- The HTTP request `handleSubmit` issues with `fetch`. -/
structure CompileRequest where
  method : String
  path : String
  bodyCode : String
  bodyLanguage : String
deriving DecidableEq, Repr

/-- The request construction inside `handleSubmit`: a `POST` to the
`/compile` endpoint whose JSON body is
`JSON.stringify(\x7b code, language: selectedLanguage \x7d)`. -/
def buildCompileRequest (s : PageState) : CompileRequest :=
  { method := "POST"
    path := "/compile"
    bodyCode := s.code
    bodyLanguage := s.selectedLanguage.keyString }

/-! ## Output panel, from `src/unnamed/part_003` (`OutputPanel`) -/

/-- The props of `OutputPanel`. -/
structure OutputPanelProps where
  output : Option String
  error : Option String
  executionTime : Option Int
  isLoading : Bool

/-- Which main block the console body shows. -/
inductive ConsoleBlock where
  | executing
  | errorBlock (message : String)
  | successBlock (text : String)
  | placeholder
deriving DecidableEq, Repr

/-- What one render of `OutputPanel` displays: whether the execution
time badge appears, and which main block is shown. -/
structure ConsoleView where
  timeBadge : Option Int
  block : ConsoleBlock
deriving DecidableEq, Repr

/-- The render logic of the first `OutputPanel` version in
`src/unnamed/part_003` (the one with the `Console` header): while
loading only the `Executing...` line shows; otherwise the time badge
shows whenever `executionTime !== null`, and the body is the Error block
when `error !== null` (`hasError`), else the Success block when
`output !== null` (`hasOutput`, with the JSX fallback text for an empty
string, since `output || fallback` is falsy on `""`), else the
placeholder. -/
def renderOutputPanel (p : OutputPanelProps) : ConsoleView :=
  if p.isLoading then ⟨none, .executing⟩
  else
    match p.error with
    | some e => ⟨p.executionTime, .errorBlock e⟩
    | none =>
      match p.output with
      | some o =>
          ⟨p.executionTime,
           .successBlock (if o = "" then "Execution finished with no output." else o)⟩
      | none => ⟨p.executionTime, .placeholder⟩

/-- JavaScript truthiness of a nullable string: `null` and `""` are
falsy, everything else truthy. -/
def jsTruthyStr : Option String → Bool
  | none => false
  | some s => s ≠ ""

/-- The render logic of the second `OutputPanel` version in
`src/unnamed/part_003` (the header-less one).  It differs from the
first in the error test: the JSX is `error ? ... : output !== null ?`,
a truthiness test, so a non-null but empty `error` falls through to the
output branch; the success fallback text is `"No output produced."`. -/
def renderOutputPanel2 (p : OutputPanelProps) : ConsoleView :=
  if p.isLoading then ⟨none, .executing⟩
  else if jsTruthyStr p.error then
    ⟨p.executionTime, .errorBlock (p.error.getD "")⟩
  else
    match p.output with
    | some o =>
        ⟨p.executionTime,
         .successBlock (if o = "" then "No output produced." else o)⟩
    | none => ⟨p.executionTime, .placeholder⟩

/-! ## Custom-language lexer

Modelled from the spec: the engine's Lexer is not in the repository;
`tokenize` below follows section 4.1 of the specification.  Scanning is
single-pass, left-to-right, with one character of lookahead (two for the
multi-character operators); whitespace and line comments are discarded;
keywords are recognized by exact match after identifier scanning; the
token sequence always ends with an explicit end-of-input token.
Unrecognized characters, unterminated string literals and malformed
numeric literals fail with a lexer error.  Numeric values are modelled
as integers (double-precision floats are outside the shallow embedding),
so a decimal point is rejected like any other unrecognized character. -/

/-- Token kinds of section 3 of the specification. -/
inductive TokenKind where
  | ident
  | keyword
  | number
  | strLit
  | op
  | punct
  | eoi
deriving DecidableEq, Repr

/-- A lexical token: kind, literal text and source position. -/
structure Token where
  kind : TokenKind
  text : String
  line : Nat
  col : Nat
deriving DecidableEq, Repr

/-- The keyword set of the custom language. -/
def keywordList : List String := ["fn", "let", "if", "else", "return"]

/-- Identifier start characters: letters and underscore. -/
def isIdentStart (c : Char) : Bool := c.isAlpha || c = '_'

/-- Identifier continuation characters. -/
def isIdentChar (c : Char) : Bool := c.isAlphanum || c = '_'

/-- The two-character operators, each recognized with two characters of
lookahead. -/
def twoCharOp (a b : Char) : Bool :=
  (a = '=' && b = '=') || (a = '!' && b = '=') || (a = '<' && b = '=') ||
  (a = '>' && b = '=') || (a = '&' && b = '&') || (a = '|' && b = '|')

/-- Single-character operator characters. -/
def isSingleOp (c : Char) : Bool :=
  c = '=' || c = '<' || c = '>' || c = '+' || c = '-' || c = '*' ||
  c = '/' || c = '!'

/-- Punctuation characters. -/
def isPunct (c : Char) : Bool :=
  c = '(' || c = ')' || c = '\x7b' || c = '\x7d' || c = ',' || c = ';'

/-- One scanning loop step; `fuel` only bounds the recursion and is
chosen large enough (one unit per consumed character) never to run out. -/
def lexLoop (fuel : Nat) (cs : List Char) (line col : Nat)
    (acc : List Token) : Except String (List Token) :=
  match fuel with
  | 0 => .error "lexer: step limit exceeded"
  | fuel + 1 =>
    match cs with
    | [] => .ok (acc.reverse ++ [⟨.eoi, "", line, col⟩])
    | c :: rest =>
      if c = '\n' then lexLoop fuel rest (line + 1) 1 acc
      else if c = ' ' || c = '\t' || c = '\r' then
        lexLoop fuel rest line (col + 1) acc
      else if c = '/' && rest.head? = some '/' then
        lexLoop fuel (rest.dropWhile (fun d => d ≠ '\n')) line col acc
      else if isIdentStart c then
        let name := String.mk (c :: rest.takeWhile isIdentChar)
        let kind := if keywordList.contains name then TokenKind.keyword
                    else TokenKind.ident
        lexLoop fuel (rest.dropWhile isIdentChar) line (col + name.length)
          (⟨kind, name, line, col⟩ :: acc)
      else if c.isDigit then
        let digits := String.mk (c :: rest.takeWhile Char.isDigit)
        let rest2 := rest.dropWhile Char.isDigit
        match rest2.head? with
        | some '.' =>
            .error ("lexer: malformed numeric literal at line " ++
              toString line ++ ", column " ++ toString col)
        | _ =>
            lexLoop fuel rest2 line (col + digits.length)
              (⟨.number, digits, line, col⟩ :: acc)
      else if c = '"' then
        let content := rest.takeWhile (fun d => d ≠ '"' && d ≠ '\n')
        match (rest.dropWhile (fun d => d ≠ '"' && d ≠ '\n')).head? with
        | some '"' =>
            lexLoop fuel ((rest.dropWhile (fun d => d ≠ '"' && d ≠ '\n')).tail)
              line (col + content.length + 2)
              (⟨.strLit, String.mk content, line, col⟩ :: acc)
        | _ =>
            .error ("lexer: unterminated string literal at line " ++
              toString line ++ ", column " ++ toString col)
      else
        match rest.head? with
        | some b =>
          if twoCharOp c b then
            lexLoop fuel rest.tail line (col + 2)
              (⟨.op, String.mk [c, b], line, col⟩ :: acc)
          else if isSingleOp c then
            lexLoop fuel rest line (col + 1)
              (⟨.op, String.mk [c], line, col⟩ :: acc)
          else if isPunct c then
            lexLoop fuel rest line (col + 1)
              (⟨.punct, String.mk [c], line, col⟩ :: acc)
          else
            .error ("lexer: unrecognized character " ++ String.mk [c] ++
              " at line " ++ toString line ++ ", column " ++ toString col)
        | none =>
          if isSingleOp c then
            lexLoop fuel rest line (col + 1)
              (⟨.op, String.mk [c], line, col⟩ :: acc)
          else if isPunct c then
            lexLoop fuel rest line (col + 1)
              (⟨.punct, String.mk [c], line, col⟩ :: acc)
          else
            .error ("lexer: unrecognized character " ++ String.mk [c] ++
              " at line " ++ toString line ++ ", column " ++ toString col)

/-- Modelled from the spec: `tokenize(source) -> sequence of Token`,
failing with a lexer error on bad input (section 4.1).  Every loop step
consumes at least one character, so `source.length + 1` units of
internal fuel always suffice. -/
def tokenize (source : String) : Except String (List Token) :=
  lexLoop (source.length + 1) source.toList 1 1 []

/-! ## Custom-language AST and parser

Modelled from the spec: section 4.2 describes a strict recursive-descent
parser with operator-precedence climbing
(`or < and < equality < relational < additive < multiplicative < unary <
call/primary`), statements `fn`/`let`/`return`/`if`-`else`/block/
expression, duplicate parameter names rejected, and errors naming the
expected construct and the token found.  The recursion is bounded by a
fuel argument chosen large enough never to run out on any token list. -/

/-- Expressions of the custom language. -/
inductive Expr where
  | numberLit (v : Int)
  | stringLit (s : String)
  | identE (name : String)
  | binary (op : String) (lhs rhs : Expr)
  | unary (op : String) (e : Expr)
  | call (callee : Expr) (args : List Expr)
deriving Repr

/-- Statements of the custom language. -/
inductive Stmt where
  | letStmt (name : String) (value : Expr)
  | returnStmt (value : Expr)
  | ifStmt (cond : Expr) (thenBranch : List Stmt) (elseBranch : Option (List Stmt))
  | blockStmt (body : List Stmt)
  | fnDecl (name : String) (params : List String) (body : List Stmt)
  | exprStmt (e : Expr)
deriving Repr

/-- The token the parser is looking at (`eoi` beyond the end, which the
lexer guarantees is present anyway). -/
def peekTok (ts : List Token) : Token :=
  ts.headD ⟨.eoi, "", 0, 0⟩

/-- A parse error naming the expected construct and the token found,
with its position. -/
def parseErr (expected : String) (ts : List Token) : String :=
  let t := peekTok ts
  "parser: expected " ++ expected ++ " but found " ++
    (if t.kind = .eoi then "end of input" else t.text) ++
    " at line " ++ toString t.line ++ ", column " ++ toString t.col

/-- Consume one token whose text must be `expected` (a keyword,
operator or punctuation mark). -/
def expectTok (expected : String) (ts : List Token) :
    Except String (List Token) :=
  let t := peekTok ts
  if t.text = expected && t.kind ≠ .eoi then .ok ts.tail
  else .error (parseErr expected ts)

/-- True when the looked-at token is an operator with the given text. -/
def peekIsOp (text : String) (ts : List Token) : Bool :=
  let t := peekTok ts
  t.kind = .op && t.text = text

/-- True when the looked-at token is a keyword with the given text. -/
def peekIsKeyword (text : String) (ts : List Token) : Bool :=
  let t := peekTok ts
  t.kind = .keyword && t.text = text

/-- True when the looked-at token is the given punctuation mark. -/
def peekIsPunct (text : String) (ts : List Token) : Bool :=
  let t := peekTok ts
  t.kind = .punct && t.text = text

/-- Whether a parameter name list contains a duplicate. -/
def hasDuplicate : List String → Bool
  | [] => false
  | x :: xs => xs.contains x || hasDuplicate xs

/-- Decimal value of a digit sequence (the lexer only emits number
tokens whose text is a nonempty digit run). -/
def digitsToNat (cs : List Char) (acc : Nat) : Nat :=
  match cs with
  | [] => acc
  | c :: rest => digitsToNat rest (acc * 10 + (c.toNat - 48))

mutual

/-- Statement parser (one grammar rule per routine, single-token
lookahead). -/
def parseStmt (fuel : Nat) (ts : List Token) :
    Except String (Stmt × List Token) :=
  match fuel with
  | 0 => .error "parser: step limit exceeded"
  | fuel + 1 =>
    if peekIsKeyword "fn" ts then
      match ts.tail with
      | t :: rest =>
        if t.kind = .ident then
          match expectTok "(" rest with
          | .error e => .error e
          | .ok rest2 =>
            match parseParams fuel rest2 [] with
            | .error e => .error e
            | .ok (params, rest3) =>
              if hasDuplicate params then
                .error ("parser: duplicate parameter name in function " ++ t.text)
              else
                match parseBlock fuel rest3 with
                | .error e => .error e
                | .ok (body, rest4) => .ok (.fnDecl t.text params body, rest4)
        else .error (parseErr "function name" ts.tail)
      | [] => .error (parseErr "function name" [])
    else if peekIsKeyword "let" ts then
      match ts.tail with
      | t :: rest =>
        if t.kind = .ident then
          match expectTok "=" rest with
          | .error e => .error e
          | .ok rest2 =>
            match parseExpr fuel rest2 with
            | .error e => .error e
            | .ok (v, rest3) =>
              match expectTok ";" rest3 with
              | .error e => .error e
              | .ok rest4 => .ok (.letStmt t.text v, rest4)
        else .error (parseErr "variable name" ts.tail)
      | [] => .error (parseErr "variable name" [])
    else if peekIsKeyword "return" ts then
      match parseExpr fuel ts.tail with
      | .error e => .error e
      | .ok (v, rest) =>
        match expectTok ";" rest with
        | .error e => .error e
        | .ok rest2 => .ok (.returnStmt v, rest2)
    else if peekIsKeyword "if" ts then
      match expectTok "(" ts.tail with
      | .error e => .error e
      | .ok rest =>
        match parseExpr fuel rest with
        | .error e => .error e
        | .ok (cond, rest2) =>
          match expectTok ")" rest2 with
          | .error e => .error e
          | .ok rest3 =>
            match parseBlock fuel rest3 with
            | .error e => .error e
            | .ok (thenB, rest4) =>
              if peekIsKeyword "else" rest4 then
                if peekIsKeyword "if" rest4.tail then
                  match parseStmt fuel rest4.tail with
                  | .error e => .error e
                  | .ok (s, rest5) => .ok (.ifStmt cond thenB (some [s]), rest5)
                else
                  match parseBlock fuel rest4.tail with
                  | .error e => .error e
                  | .ok (elseB, rest5) => .ok (.ifStmt cond thenB (some elseB), rest5)
              else .ok (.ifStmt cond thenB none, rest4)
    else if peekIsPunct "\x7b" ts then
      match parseBlock fuel ts with
      | .error e => .error e
      | .ok (body, rest) => .ok (.blockStmt body, rest)
    else
      match parseExpr fuel ts with
      | .error e => .error e
      | .ok (e, rest) =>
        match expectTok ";" rest with
        | .error err => .error err
        | .ok rest2 => .ok (.exprStmt e, rest2)

termination_by structural fuel

/-- Parameter list after the opening parenthesis. -/
def parseParams (fuel : Nat) (ts : List Token) (acc : List String) :
    Except String (List String × List Token) :=
  match fuel with
  | 0 => .error "parser: step limit exceeded"
  | fuel + 1 =>
    if peekIsPunct ")" ts then .ok (acc.reverse, ts.tail)
    else
      match ts with
      | t :: rest =>
        if t.kind = .ident then
          if peekIsPunct "," rest then parseParams fuel rest.tail (t.text :: acc)
          else if peekIsPunct ")" rest then .ok ((t.text :: acc).reverse, rest.tail)
          else .error (parseErr "comma or closing parenthesis" rest)
        else .error (parseErr "parameter name" ts)
      | [] => .error (parseErr "parameter name" [])

termination_by structural fuel

/-- Brace-delimited statement block. -/
def parseBlock (fuel : Nat) (ts : List Token) :
    Except String (List Stmt × List Token) :=
  match fuel with
  | 0 => .error "parser: step limit exceeded"
  | fuel + 1 =>
    match expectTok "\x7b" ts with
    | .error e => .error e
    | .ok rest => parseBlockBody fuel rest []

termination_by structural fuel

/-- Statements of a block, up to the closing brace. -/
def parseBlockBody (fuel : Nat) (ts : List Token) (acc : List Stmt) :
    Except String (List Stmt × List Token) :=
  match fuel with
  | 0 => .error "parser: step limit exceeded"
  | fuel + 1 =>
    if peekIsPunct "\x7d" ts then .ok (acc.reverse, ts.tail)
    else if (peekTok ts).kind = .eoi then .error (parseErr "closing brace" ts)
    else
      match parseStmt fuel ts with
      | .error e => .error e
      | .ok (s, rest) => parseBlockBody fuel rest (s :: acc)

termination_by structural fuel

/-- Expression entry point: the lowest-precedence level. -/
def parseExpr (fuel : Nat) (ts : List Token) :
    Except String (Expr × List Token) :=
  match fuel with
  | 0 => .error "parser: step limit exceeded"
  | fuel + 1 => parseOr fuel ts

termination_by structural fuel

/-- Logical-or level. -/
def parseOr (fuel : Nat) (ts : List Token) :
    Except String (Expr × List Token) :=
  match fuel with
  | 0 => .error "parser: step limit exceeded"
  | fuel + 1 =>
    match parseAnd fuel ts with
    | .error e => .error e
    | .ok (lhs, rest) => parseOrRest fuel lhs rest

termination_by structural fuel

/-- Left-associative chain of `||`. -/
def parseOrRest (fuel : Nat) (lhs : Expr) (ts : List Token) :
    Except String (Expr × List Token) :=
  match fuel with
  | 0 => .error "parser: step limit exceeded"
  | fuel + 1 =>
    if peekIsOp "||" ts then
      match parseAnd fuel ts.tail with
      | .error e => .error e
      | .ok (rhs, rest) => parseOrRest fuel (.binary "||" lhs rhs) rest
    else .ok (lhs, ts)

termination_by structural fuel

/-- Logical-and level. -/
def parseAnd (fuel : Nat) (ts : List Token) :
    Except String (Expr × List Token) :=
  match fuel with
  | 0 => .error "parser: step limit exceeded"
  | fuel + 1 =>
    match parseEquality fuel ts with
    | .error e => .error e
    | .ok (lhs, rest) => parseAndRest fuel lhs rest

termination_by structural fuel

/-- Left-associative chain of `&&`. -/
def parseAndRest (fuel : Nat) (lhs : Expr) (ts : List Token) :
    Except String (Expr × List Token) :=
  match fuel with
  | 0 => .error "parser: step limit exceeded"
  | fuel + 1 =>
    if peekIsOp "&&" ts then
      match parseEquality fuel ts.tail with
      | .error e => .error e
      | .ok (rhs, rest) => parseAndRest fuel (.binary "&&" lhs rhs) rest
    else .ok (lhs, ts)

termination_by structural fuel

/-- Equality level (`==`, `!=`). -/
def parseEquality (fuel : Nat) (ts : List Token) :
    Except String (Expr × List Token) :=
  match fuel with
  | 0 => .error "parser: step limit exceeded"
  | fuel + 1 =>
    match parseRelational fuel ts with
    | .error e => .error e
    | .ok (lhs, rest) => parseEqualityRest fuel lhs rest

termination_by structural fuel

/-- Left-associative chain of equality operators. -/
def parseEqualityRest (fuel : Nat) (lhs : Expr) (ts : List Token) :
    Except String (Expr × List Token) :=
  match fuel with
  | 0 => .error "parser: step limit exceeded"
  | fuel + 1 =>
    if peekIsOp "==" ts || peekIsOp "!=" ts then
      match parseRelational fuel ts.tail with
      | .error e => .error e
      | .ok (rhs, rest) =>
          parseEqualityRest fuel (.binary (peekTok ts).text lhs rhs) rest
    else .ok (lhs, ts)

termination_by structural fuel

/-- Relational level (`<`, `<=`, `>`, `>=`). -/
def parseRelational (fuel : Nat) (ts : List Token) :
    Except String (Expr × List Token) :=
  match fuel with
  | 0 => .error "parser: step limit exceeded"
  | fuel + 1 =>
    match parseAdditive fuel ts with
    | .error e => .error e
    | .ok (lhs, rest) => parseRelationalRest fuel lhs rest

termination_by structural fuel

/-- Left-associative chain of relational operators. -/
def parseRelationalRest (fuel : Nat) (lhs : Expr) (ts : List Token) :
    Except String (Expr × List Token) :=
  match fuel with
  | 0 => .error "parser: step limit exceeded"
  | fuel + 1 =>
    if peekIsOp "<" ts || peekIsOp "<=" ts || peekIsOp ">" ts ||
        peekIsOp ">=" ts then
      match parseAdditive fuel ts.tail with
      | .error e => .error e
      | .ok (rhs, rest) =>
          parseRelationalRest fuel (.binary (peekTok ts).text lhs rhs) rest
    else .ok (lhs, ts)

termination_by structural fuel

/-- Additive level (`+`, `-`). -/
def parseAdditive (fuel : Nat) (ts : List Token) :
    Except String (Expr × List Token) :=
  match fuel with
  | 0 => .error "parser: step limit exceeded"
  | fuel + 1 =>
    match parseMultiplicative fuel ts with
    | .error e => .error e
    | .ok (lhs, rest) => parseAdditiveRest fuel lhs rest

termination_by structural fuel

/-- Left-associative chain of additive operators. -/
def parseAdditiveRest (fuel : Nat) (lhs : Expr) (ts : List Token) :
    Except String (Expr × List Token) :=
  match fuel with
  | 0 => .error "parser: step limit exceeded"
  | fuel + 1 =>
    if peekIsOp "+" ts || peekIsOp "-" ts then
      match parseMultiplicative fuel ts.tail with
      | .error e => .error e
      | .ok (rhs, rest) =>
          parseAdditiveRest fuel (.binary (peekTok ts).text lhs rhs) rest
    else .ok (lhs, ts)

termination_by structural fuel

/-- Multiplicative level (`*`, `/`). -/
def parseMultiplicative (fuel : Nat) (ts : List Token) :
    Except String (Expr × List Token) :=
  match fuel with
  | 0 => .error "parser: step limit exceeded"
  | fuel + 1 =>
    match parseUnary fuel ts with
    | .error e => .error e
    | .ok (lhs, rest) => parseMultiplicativeRest fuel lhs rest

termination_by structural fuel

/-- Left-associative chain of multiplicative operators. -/
def parseMultiplicativeRest (fuel : Nat) (lhs : Expr) (ts : List Token) :
    Except String (Expr × List Token) :=
  match fuel with
  | 0 => .error "parser: step limit exceeded"
  | fuel + 1 =>
    if peekIsOp "*" ts || peekIsOp "/" ts then
      match parseUnary fuel ts.tail with
      | .error e => .error e
      | .ok (rhs, rest) =>
          parseMultiplicativeRest fuel (.binary (peekTok ts).text lhs rhs) rest
    else .ok (lhs, ts)

termination_by structural fuel

/-- Unary level (`-`, `!`). -/
def parseUnary (fuel : Nat) (ts : List Token) :
    Except String (Expr × List Token) :=
  match fuel with
  | 0 => .error "parser: step limit exceeded"
  | fuel + 1 =>
    if peekIsOp "-" ts || peekIsOp "!" ts then
      match parseUnary fuel ts.tail with
      | .error e => .error e
      | .ok (e, rest) => .ok (.unary (peekTok ts).text e, rest)
    else parsePostfix fuel ts

termination_by structural fuel

/-- Call/primary level: a primary followed by any number of argument
lists. -/
def parsePostfix (fuel : Nat) (ts : List Token) :
    Except String (Expr × List Token) :=
  match fuel with
  | 0 => .error "parser: step limit exceeded"
  | fuel + 1 =>
    match parsePrimary fuel ts with
    | .error e => .error e
    | .ok (e, rest) => parseCallChain fuel e rest

termination_by structural fuel

/-- Chain of call argument lists after a primary. -/
def parseCallChain (fuel : Nat) (callee : Expr) (ts : List Token) :
    Except String (Expr × List Token) :=
  match fuel with
  | 0 => .error "parser: step limit exceeded"
  | fuel + 1 =>
    if peekIsPunct "(" ts then
      match parseArgs fuel ts.tail [] with
      | .error e => .error e
      | .ok (args, rest) => parseCallChain fuel (.call callee args) rest
    else .ok (callee, ts)

termination_by structural fuel

/-- Argument list after the opening parenthesis. -/
def parseArgs (fuel : Nat) (ts : List Token) (acc : List Expr) :
    Except String (List Expr × List Token) :=
  match fuel with
  | 0 => .error "parser: step limit exceeded"
  | fuel + 1 =>
    if peekIsPunct ")" ts then .ok (acc.reverse, ts.tail)
    else
      match parseExpr fuel ts with
      | .error e => .error e
      | .ok (a, rest) =>
        if peekIsPunct "," rest then parseArgs fuel rest.tail (a :: acc)
        else if peekIsPunct ")" rest then .ok ((a :: acc).reverse, rest.tail)
        else .error (parseErr "comma or closing parenthesis" rest)

termination_by structural fuel

/-- Primary expressions: literals, identifiers and parenthesized
expressions. -/
def parsePrimary (fuel : Nat) (ts : List Token) :
    Except String (Expr × List Token) :=
  match fuel with
  | 0 => .error "parser: step limit exceeded"
  | fuel + 1 =>
    match ts with
    | t :: rest =>
      if t.kind = .number then
        .ok (.numberLit (Int.ofNat (digitsToNat t.text.toList 0)), rest)
      else if t.kind = .strLit then .ok (.stringLit t.text, rest)
      else if t.kind = .ident then .ok (.identE t.text, rest)
      else if t.kind = .punct && t.text = "(" then
        match parseExpr fuel rest with
        | .error e => .error e
        | .ok (e, rest2) =>
          match expectTok ")" rest2 with
          | .error err => .error err
          | .ok rest3 => .ok (e, rest3)
      else .error (parseErr "expression" ts)
    | [] => .error (parseErr "expression" [])

termination_by structural fuel
end

/-- Top-level statement loop, until the end-of-input token. -/
def parseProgramLoop (fuel : Nat) (ts : List Token) (acc : List Stmt) :
    Except String (List Stmt) :=
  match fuel with
  | 0 => .error "parser: step limit exceeded"
  | fuel + 1 =>
    if (peekTok ts).kind = .eoi then .ok acc.reverse
    else
      match parseStmt fuel ts with
      | .error e => .error e
      | .ok (s, rest) => parseProgramLoop fuel rest (s :: acc)

/-- Modelled from the spec: `parse(tokens) -> Program AST`, failing with
a parser error naming the expected construct and the token found
(section 4.2).  The internal fuel, one hundred units per token, bounds
the recursion and never runs out in practice: every grammar routine
either consumes a token or descends a strictly lower-precedence chain of
bounded depth. -/
def parseProgram (ts : List Token) : Except String (List Stmt) :=
  parseProgramLoop (100 * (ts.length + 1)) ts []

/-! ## Custom-language interpreter

Modelled from the spec: section 4.3 describes a tree-walking evaluator
with lexical environments, closures, a bounded call stack, and a
cooperative time budget checked at bounded intervals.  The budget is a
step counter: every evaluation step consumes one unit, and exhaustion
aborts with a timeout signal.  A function value records its own name so
a call binds that name in the fresh call environment, which is what
gives recursion under immutable environments (the spec: the function's
own name is bound in the defining scope before the body is evaluated).
Numbers are integers here, as in the lexer.  The `println` built-in is
a special form writing to the captured output buffer. -/

/-- Runtime errors of section 4.3. -/
inductive RuntimeErr where
  | undefinedVar (name : String)
  | typeMismatch (op : String)
  | divisionByZero
  | stackOverflow
  | wrongArgCount (name : String)
  | notAFunction
deriving DecidableEq, Repr

/-- Runtime values.  A function value captures the environment of its
definition site; the environment is the chain of scope frames, innermost
first. -/
inductive Value where
  | num (v : Int)
  | strV (s : String)
  | boolV (b : Bool)
  | fnV (name : String) (params : List String) (body : List Stmt)
        (closure : List (List (String × Value)))
  | unitV
deriving Repr

/-- An environment: the chain of scope frames, innermost first. -/
abbrev Env := List (List (String × Value))

/-- Lookup in one frame. -/
def lookupFrame (frame : List (String × Value)) (n : String) : Option Value :=
  match frame with
  | [] => none
  | (k, v) :: rest => if k = n then some v else lookupFrame rest n

/-- Lookup walking the scope chain from the innermost frame outward,
as section 4.3 prescribes. -/
def lookupEnv (env : Env) (n : String) : Option Value :=
  match env with
  | [] => none
  | f :: outer =>
    match lookupFrame f n with
    | some v => some v
    | none => lookupEnv outer n

/-- Bind a name in the innermost frame (a `let` or `fn` declaration). -/
def bindVar (env : Env) (n : String) (v : Value) : Env :=
  match env with
  | f :: outer => ((n, v) :: f) :: outer
  | [] => [[(n, v)]]

/-- Result of one evaluation: a value, a runtime error, or the
cooperative timeout signal. -/
inductive Exec (α : Type) where
  | ok (a : α)
  | rerr (e : RuntimeErr)
  | tmo
deriving Repr

/-- Statement-level control: fall through or an active `return`. -/
inductive Ctl where
  | normal
  | ret (v : Value)
deriving Repr

/-- Rendering of a value by `println`. -/
def renderValue : Value → String
  | .num v => toString v
  | .strV s => s
  | .boolV b => if b then "true" else "false"
  | .fnV n _ _ _ => "<fn " ++ n ++ ">"
  | .unitV => "()"

/-- Apply a unary operator (section 4.3: every operator enumerates its
accepted operand types and fails with a runtime error otherwise). -/
def applyUnary (op : String) (v : Value) : Except RuntimeErr Value :=
  match op, v with
  | "-", .num n => .ok (.num (-n))
  | "!", .boolV b => .ok (.boolV (!b))
  | _, _ => .error (.typeMismatch op)

/-- Equality of two values of matching base type. -/
def valueEq (l r : Value) : Except RuntimeErr Bool :=
  match l, r with
  | .num a, .num b => .ok (a = b)
  | .strV a, .strV b => .ok (a = b)
  | .boolV a, .boolV b => .ok (a = b)
  | .unitV, .unitV => .ok true
  | _, _ => .error (.typeMismatch "==")

/-- Apply a non-short-circuit binary operator: numeric arithmetic and
comparison, string concatenation via `+` when both operands are strings
(the only other overload), equality on matching base types, and
division-by-zero failure. -/
def applyBinary (op : String) (l r : Value) : Except RuntimeErr Value :=
  match op with
  | "+" =>
    match l, r with
    | .num a, .num b => .ok (.num (a + b))
    | .strV a, .strV b => .ok (.strV (a ++ b))
    | _, _ => .error (.typeMismatch op)
  | "-" =>
    match l, r with
    | .num a, .num b => .ok (.num (a - b))
    | _, _ => .error (.typeMismatch op)
  | "*" =>
    match l, r with
    | .num a, .num b => .ok (.num (a * b))
    | _, _ => .error (.typeMismatch op)
  | "/" =>
    match l, r with
    | .num a, .num b => if b = 0 then .error .divisionByZero else .ok (.num (a / b))
    | _, _ => .error (.typeMismatch op)
  | "<" =>
    match l, r with
    | .num a, .num b => .ok (.boolV (a < b))
    | _, _ => .error (.typeMismatch op)
  | "<=" =>
    match l, r with
    | .num a, .num b => .ok (.boolV (a ≤ b))
    | _, _ => .error (.typeMismatch op)
  | ">" =>
    match l, r with
    | .num a, .num b => .ok (.boolV (b < a))
    | _, _ => .error (.typeMismatch op)
  | ">=" =>
    match l, r with
    | .num a, .num b => .ok (.boolV (b ≤ a))
    | _, _ => .error (.typeMismatch op)
  | "==" => (valueEq l r).map Value.boolV
  | "!=" => (valueEq l r).map (fun b => Value.boolV (!b))
  | _ => .error (.typeMismatch op)

mutual

/-- Evaluate one expression.  `fuel` is the cooperative time budget
(one unit per step), `depth` the current call depth, `limit` the
configured call-stack limit, `out` the captured output buffer. -/
def evalExpr (fuel depth limit : Nat) (env : Env) (out : String)
    (e : Expr) : Exec (Value × String) :=
  match fuel with
  | 0 => .tmo
  | fuel + 1 =>
    match e with
    | .numberLit v => .ok (.num v, out)
    | .stringLit s => .ok (.strV s, out)
    | .identE n =>
      match lookupEnv env n with
      | some v => .ok (v, out)
      | none => .rerr (.undefinedVar n)
    | .unary op a =>
      match evalExpr fuel depth limit env out a with
      | .ok (v, out2) =>
        match applyUnary op v with
        | .ok r => .ok (r, out2)
        | .error err => .rerr err
      | .rerr err => .rerr err
      | .tmo => .tmo
    | .binary op a b =>
      if op = "&&" then
        match evalExpr fuel depth limit env out a with
        | .ok (.boolV false, out2) => .ok (.boolV false, out2)
        | .ok (.boolV true, out2) =>
          match evalExpr fuel depth limit env out2 b with
          | .ok (.boolV rb, out3) => .ok (.boolV rb, out3)
          | .ok _ => .rerr (.typeMismatch op)
          | .rerr err => .rerr err
          | .tmo => .tmo
        | .ok _ => .rerr (.typeMismatch op)
        | .rerr err => .rerr err
        | .tmo => .tmo
      else if op = "||" then
        match evalExpr fuel depth limit env out a with
        | .ok (.boolV true, out2) => .ok (.boolV true, out2)
        | .ok (.boolV false, out2) =>
          match evalExpr fuel depth limit env out2 b with
          | .ok (.boolV rb, out3) => .ok (.boolV rb, out3)
          | .ok _ => .rerr (.typeMismatch op)
          | .rerr err => .rerr err
          | .tmo => .tmo
        | .ok _ => .rerr (.typeMismatch op)
        | .rerr err => .rerr err
        | .tmo => .tmo
      else
        match evalExpr fuel depth limit env out a with
        | .ok (lv, out2) =>
          match evalExpr fuel depth limit env out2 b with
          | .ok (rv, out3) =>
            match applyBinary op lv rv with
            | .ok r => .ok (r, out3)
            | .error err => .rerr err
          | .rerr err => .rerr err
          | .tmo => .tmo
        | .rerr err => .rerr err
        | .tmo => .tmo
    | .call callee args =>
      match callee with
      | .identE "println" =>
        match evalArgs fuel depth limit env out args with
        | .ok (vs, out2) =>
            .ok (.unitV,
              out2 ++ String.intercalate " " (vs.map renderValue) ++ "\n")
        | .rerr err => .rerr err
        | .tmo => .tmo
      | _ =>
        match evalExpr fuel depth limit env out callee with
        | .ok (f, out2) =>
          match evalArgs fuel depth limit env out2 args with
          | .ok (vs, out3) => callValue fuel depth limit out3 f vs
          | .rerr err => .rerr err
          | .tmo => .tmo
        | .rerr err => .rerr err
        | .tmo => .tmo

termination_by structural fuel

/-- Evaluate an argument list left to right. -/
def evalArgs (fuel depth limit : Nat) (env : Env) (out : String)
    (es : List Expr) : Exec (List Value × String) :=
  match fuel with
  | 0 => .tmo
  | fuel + 1 =>
    match es with
    | [] => .ok ([], out)
    | a :: rest =>
      match evalExpr fuel depth limit env out a with
      | .ok (v, out2) =>
        match evalArgs fuel depth limit env out2 rest with
        | .ok (vs, out3) => .ok (v :: vs, out3)
        | .rerr err => .rerr err
        | .tmo => .tmo
      | .rerr err => .rerr err
      | .tmo => .tmo

termination_by structural fuel

/-- Call a function value: check the call-stack limit and the argument
count, then evaluate the body in a fresh environment whose parent is the
captured closure environment (not the caller's), with the function's own
name bound for recursion.  A fall-through body yields the unit value. -/
def callValue (fuel depth limit : Nat) (out : String) (f : Value)
    (args : List Value) : Exec (Value × String) :=
  match fuel with
  | 0 => .tmo
  | fuel + 1 =>
    match f with
    | .fnV name params body closure =>
      if limit ≤ depth then .rerr .stackOverflow
      else if params.length ≠ args.length then .rerr (.wrongArgCount name)
      else
        let frame := (name, f) :: params.zip args
        match evalStmts fuel (depth + 1) limit (frame :: closure) out body with
        | .ok (.ret v, _, out2) => .ok (v, out2)
        | .ok (.normal, _, out2) => .ok (.unitV, out2)
        | .rerr err => .rerr err
        | .tmo => .tmo
    | _ => .rerr .notAFunction

termination_by structural fuel

/-- Evaluate one statement, returning the control disposition and the
updated innermost environment. -/
def evalStmt (fuel depth limit : Nat) (env : Env) (out : String)
    (s : Stmt) : Exec (Ctl × Env × String) :=
  match fuel with
  | 0 => .tmo
  | fuel + 1 =>
    match s with
    | .letStmt n e =>
      match evalExpr fuel depth limit env out e with
      | .ok (v, out2) => .ok (.normal, bindVar env n v, out2)
      | .rerr err => .rerr err
      | .tmo => .tmo
    | .returnStmt e =>
      match evalExpr fuel depth limit env out e with
      | .ok (v, out2) => .ok (.ret v, env, out2)
      | .rerr err => .rerr err
      | .tmo => .tmo
    | .ifStmt cond thenB elseB =>
      match evalExpr fuel depth limit env out cond with
      | .ok (.boolV true, out2) =>
        match evalStmts fuel depth limit ([] :: env) out2 thenB with
        | .ok (ctl, _, out3) => .ok (ctl, env, out3)
        | .rerr err => .rerr err
        | .tmo => .tmo
      | .ok (.boolV false, out2) =>
        match elseB with
        | some es =>
          match evalStmts fuel depth limit ([] :: env) out2 es with
          | .ok (ctl, _, out3) => .ok (ctl, env, out3)
          | .rerr err => .rerr err
          | .tmo => .tmo
        | none => .ok (.normal, env, out2)
      | .ok _ => .rerr (.typeMismatch "if")
      | .rerr err => .rerr err
      | .tmo => .tmo
    | .blockStmt body =>
      match evalStmts fuel depth limit ([] :: env) out body with
      | .ok (ctl, _, out2) => .ok (ctl, env, out2)
      | .rerr err => .rerr err
      | .tmo => .tmo
    | .fnDecl n params body =>
      .ok (.normal, bindVar env n (.fnV n params body env), out)
    | .exprStmt e =>
      match evalExpr fuel depth limit env out e with
      | .ok (_, out2) => .ok (.normal, env, out2)
      | .rerr err => .rerr err
      | .tmo => .tmo

termination_by structural fuel

/-- Evaluate a statement sequence, stopping at an active `return`. -/
def evalStmts (fuel depth limit : Nat) (env : Env) (out : String)
    (ss : List Stmt) : Exec (Ctl × Env × String) :=
  match fuel with
  | 0 => .tmo
  | fuel + 1 =>
    match ss with
    | [] => .ok (.normal, env, out)
    | s :: rest =>
      match evalStmt fuel depth limit env out s with
      | .ok (.normal, env2, out2) => evalStmts fuel depth limit env2 out2 rest
      | .ok (.ret v, env2, out2) => .ok (.ret v, env2, out2)
      | .rerr err => .rerr err
      | .tmo => .tmo

termination_by structural fuel
end

/-- Human-readable form of a runtime error, as the engine's error
message. -/
def describeRuntimeErr : RuntimeErr → String
  | .undefinedVar n => "undefined variable: " ++ n
  | .typeMismatch op => "type mismatch in operator " ++ op
  | .divisionByZero => "division by zero"
  | .stackOverflow => "stack overflow"
  | .wrongArgCount n => "wrong argument count in call to " ++ n
  | .notAFunction => "called a non-function value"

/-! ## Outcome, supervisor, dispatcher and result encoder

Modelled from the spec: sections 3 and 4.4 to 4.6.  Wall-clock time for
the in-process path is the cooperative step budget; lexing is charged
one step per source character and parsing one step per token, so a
budget can run out during any of the three phases.  The external
toolchains (rust, python, c) are outside the repository and outside the
shallow embedding, so a subprocess run is a parameter: an observation
(elapsed time, peak memory, and what the process did), which the
supervisor classifies exactly as section 4.5 prescribes. -/

/-- The resource budget of one request. -/
structure ResourceBudget where
  timeLimitSteps : Nat
  callStackLimit : Nat
  timeoutMillis : Nat
  memoryLimitBytes : Nat
deriving DecidableEq, Repr

/-- The execution outcome record of section 3.  `elapsedMillis` is an
option here because the dispatcher's pre-execution rejection carries no
measurement; every execution path fills it. -/
structure ExecutionOutcome where
  status : ExecutionStatus
  errorType : Option ErrorType
  stdout : Option String
  message : Option String
  elapsedMillis : Option Nat
  peakMemoryBytes : Option Nat
deriving DecidableEq, Repr

/-- What the three-phase custom-language pipeline did. -/
inductive PipeResult where
  | lexFail (msg : String)
  | parseFail (msg : String)
  | runOk (out : String)
  | runFail (msg : String)
  | timedOut
deriving DecidableEq, Repr

/-- Modelled from the spec: the in-process Lexer, Parser and Interpreter
pipeline under one cooperative step budget.  Lexing costs one step per
source character and parsing one step per token; the interpreter
consumes the remainder one step at a time.  When the budget runs out in
any phase the pipeline reports the timeout signal, whatever that phase
would otherwise have reported. -/
def runPipeline (code : String) (b : ResourceBudget) : PipeResult :=
  if b.timeLimitSteps < code.length then .timedOut
  else
    match tokenize code with
    | .error e => .lexFail e
    | .ok toks =>
      let remaining := b.timeLimitSteps - code.length
      if remaining < toks.length then .timedOut
      else
        match parseProgram toks with
        | .error e => .parseFail e
        | .ok prog =>
          match evalStmts (remaining - toks.length) 0 b.callStackLimit
              [[]] "" prog with
          | .ok (_, _, out) => .runOk out
          | .rerr e => .runFail (describeRuntimeErr e)
          | .tmo => .timedOut

/-- Modelled from the spec: the custom-language path of the dispatcher,
converting the pipeline result into an outcome.  An elapsed measurement
is always attached (the wall clock itself is outside the embedding; the
modelled value is the step budget on timeout and zero otherwise). -/
def runCustom (code : String) (b : ResourceBudget) : ExecutionOutcome :=
  match runPipeline code b with
  | .runOk out =>
      ⟨.SUCCESS, none, some out, none, some 0, none⟩
  | .lexFail e =>
      ⟨.ERROR, some .LEXER_ERROR, none, some e, some 0, none⟩
  | .parseFail e =>
      ⟨.ERROR, some .PARSER_ERROR, none, some e, some 0, none⟩
  | .runFail e =>
      ⟨.ERROR, some .RUNTIME_ERROR, none, some e, some 0, none⟩
  | .timedOut =>
      ⟨.TIMEOUT, none, none, some "time limit exceeded", some b.timeLimitSteps,
        none⟩

/-- What a supervised toolchain subprocess did, as far as the supervisor
can observe it. -/
inductive ToolchainPhase where
  | spawnFailure (msg : String)
  | compileFailure (diag : ErrorType) (msg : String)
  | completed (exitCode : Nat) (stdoutS stderrS : String)
deriving DecidableEq, Repr

/-- One supervised subprocess observation: elapsed wall-clock time,
peak resident memory, and the phase the process reached. -/
structure ToolchainObs where
  elapsed : Nat
  peakMem : Nat
  phase : ToolchainPhase
deriving DecidableEq, Repr

/-- A toolchain runner: what the external toolchain of each supported
language does on a given source text.  The toolchains themselves live
outside the repository, so they are a parameter of the model. -/
def ToolchainRun : Type := String → String → ToolchainObs

/-- Modelled from the spec: the Sandbox Supervisor's classification of a
subprocess observation (section 4.5).  A memory-ceiling violation maps
to `MEMORY_LIMIT` and a wall-clock violation to `TIMEOUT`, both
pre-empting every other classification; then a spawn failure is
`SYSTEM_ERROR`, a toolchain-reported compile failure carries the
toolchain's own lexer/parser diagnostic, a non-zero exit is
`RUNTIME_ERROR`, and exit zero is success with the captured stdout as
payload.  Elapsed time and peak memory are attached regardless of the
final status. -/
def runIsolated (obs : ToolchainObs) (b : ResourceBudget) : ExecutionOutcome :=
  if b.memoryLimitBytes ≤ obs.peakMem then
    ⟨.MEMORY_LIMIT, none, none, some "memory limit exceeded",
      some obs.elapsed, some obs.peakMem⟩
  else if b.timeoutMillis ≤ obs.elapsed then
    ⟨.TIMEOUT, none, none, some "time limit exceeded",
      some obs.elapsed, some obs.peakMem⟩
  else
    match obs.phase with
    | .spawnFailure _ =>
        ⟨.ERROR, some .SYSTEM_ERROR, none, some "internal system failure",
          some obs.elapsed, some obs.peakMem⟩
    | .compileFailure diag msg =>
        ⟨.ERROR, some diag, none, some msg, some obs.elapsed,
          some obs.peakMem⟩
    | .completed 0 outS _ =>
        ⟨.SUCCESS, none, some outS, none, some obs.elapsed, some obs.peakMem⟩
    | .completed (_ + 1) _ errS =>
        ⟨.ERROR, some .RUNTIME_ERROR, none, some errS, some obs.elapsed,
          some obs.peakMem⟩

/-- Resources the engine can allocate for one request. -/
inductive Resource where
  | tempFile
  | sandboxDir
  | subprocess
deriving DecidableEq, Repr

/-- Modelled from the spec: `dispatch(code, languageSelector)`
(section 4.4), with the unset selector defaulting to `"custom"` (the
external-interface rule of section 6, matching the `DEFAULT 'custom'`
column of the `executions` table).  The custom language runs the
in-process pipeline; every other supported language stages a temp file,
a sandbox directory and a subprocess and classifies the observation; an
unsupported selector is rejected with `API_ERROR` before any resource is
allocated and with no elapsed measurement. -/
def dispatch (ext : ToolchainRun) (code : String)
    (language : Option String) (b : ResourceBudget) :
    ExecutionOutcome × List Resource :=
  if language.getD "custom" = "custom" then (runCustom code b, [])
  else if language.getD "custom" ∈ supportedLanguageKeys then
    (runIsolated (ext (language.getD "custom") code) b,
      [.tempFile, .sandboxDir, .subprocess])
  else
    (⟨.ERROR, some .API_ERROR, none,
        some ("unsupported language: " ++ language.getD "custom"), none, none⟩,
      [])

/-- The externally visible response shape of section 6. -/
structure CompileResponse where
  result : Option String
  error : Option String
  execution_time_ms : Option Nat
deriving DecidableEq, Repr

/-- Modelled from the spec: the Result Encoder (section 4.6).  On
success the captured stdout is the `result` and `error` is empty; on any
other status `result` is empty and the outcome's message (or a generic
one) is the `error`.  The elapsed measurement passes through, so it is
absent exactly when the dispatcher rejected the request before
execution. -/
def encodeOutcome (o : ExecutionOutcome) : CompileResponse :=
  if o.status = .SUCCESS then
    ⟨some (o.stdout.getD ""), none, o.elapsedMillis⟩
  else
    ⟨none, some (o.message.getD "execution failed"), o.elapsedMillis⟩

/-- A batch of requests processed in sequence: each request gets a fresh
evaluation (the spec's concurrency rule: no shared mutable interpreter
or environment state between requests). -/
def runBatch (ext : ToolchainRun) (b : ResourceBudget)
    (reqs : List (String × Option String)) : List ExecutionOutcome :=
  reqs.map (fun r => (dispatch ext r.1 r.2 b).1)

/-- The outcome of the request at one position of a batch. -/
def batchOutcomeAt (ext : ToolchainRun) (b : ResourceBudget)
    (reqs : List (String × Option String)) (i : Nat) :
    Option ExecutionOutcome :=
  (runBatch ext b reqs)[i]?

/-! ## Shared facts about the modelled engine -/

/-- The encoder passes the elapsed measurement through unchanged. -/
theorem encodeOutcome_time (o : ExecutionOutcome) :
    (encodeOutcome o).execution_time_ms = o.elapsedMillis := by
  unfold encodeOutcome; split <;> rfl

/-- The custom-language path never reports `PENDING`. -/
theorem runCustom_status_ne_pending (code : String) (b : ResourceBudget) :
    (runCustom code b).status ≠ .PENDING := by
  unfold runCustom; split <;> simp

/-- The supervisor never reports `PENDING` for a subprocess. -/
theorem runIsolated_status_ne_pending (obs : ToolchainObs) (b : ResourceBudget) :
    (runIsolated obs b).status ≠ .PENDING := by
  obtain ⟨el, pm, ph⟩ := obs
  unfold runIsolated
  split_ifs with h1 h2
  · simp
  · simp
  · cases ph with
    | spawnFailure m => simp
    | compileFailure d m => simp
    | completed ec o e => cases ec <;> simp

/-- The custom-language path always attaches an elapsed measurement. -/
theorem runCustom_elapsed_isSome (code : String) (b : ResourceBudget) :
    (runCustom code b).elapsedMillis.isSome = true := by
  unfold runCustom; split <;> rfl

/-- The supervisor attaches the measured elapsed time regardless of the
final status. -/
theorem runIsolated_elapsed (obs : ToolchainObs) (b : ResourceBudget) :
    (runIsolated obs b).elapsedMillis = some obs.elapsed := by
  obtain ⟨el, pm, ph⟩ := obs
  unfold runIsolated
  split_ifs with h1 h2
  · rfl
  · rfl
  · cases ph with
    | spawnFailure m => rfl
    | compileFailure d m => rfl
    | completed ec o e => cases ec <;> rfl

/-- The custom branch of the dispatcher. -/
theorem dispatch_custom_branch (ext : ToolchainRun) (code : String)
    (language : Option String) (b : ResourceBudget)
    (h : language.getD "custom" = "custom") :
    dispatch ext code language b = (runCustom code b, []) := by
  unfold dispatch; rw [if_pos h]

/-- The external-toolchain branch of the dispatcher. -/
theorem dispatch_external_branch (ext : ToolchainRun) (code : String)
    (language : Option String) (b : ResourceBudget)
    (h1 : language.getD "custom" ≠ "custom")
    (h2 : language.getD "custom" ∈ supportedLanguageKeys) :
    dispatch ext code language b =
      (runIsolated (ext (language.getD "custom") code) b,
        [.tempFile, .sandboxDir, .subprocess]) := by
  unfold dispatch; rw [if_neg h1, if_pos h2]

/-- The rejection branch of the dispatcher. -/
theorem dispatch_rejected_branch (ext : ToolchainRun) (code : String)
    (language : Option String) (b : ResourceBudget)
    (h : language.getD "custom" ∉ supportedLanguageKeys) :
    dispatch ext code language b =
      (⟨.ERROR, some .API_ERROR, none,
          some ("unsupported language: " ++ language.getD "custom"), none,
          none⟩, []) := by
  have h1 : language.getD "custom" ≠ "custom" := by
    intro hc
    rw [hc] at h
    exact h (by decide)
  unfold dispatch; rw [if_neg h1, if_neg h]

/-- A fixed benign toolchain runner used by the concrete witnesses. -/
def witnessToolchain : ToolchainRun := fun _ _ => ⟨1, 0, .completed 0 "ok" ""⟩

/-- A budget comfortably large enough for the tiny witness programs. -/
def witnessBudget : ResourceBudget := ⟨64, 16, 2000, 1024⟩

/-- A budget whose step allowance is exhausted before lexing starts. -/
def zeroStepBudget : ResourceBudget := ⟨0, 16, 2000, 1024⟩

/-! ## The claims -/

/-- C1: for every execution outcome delivered to the caller, `result`
and `error` are mutually exclusive: at most one is non-empty, a
`SUCCESS` status forces `error` empty, and a non-`SUCCESS` status forces
`result` empty. -/
theorem encoder_result_error_exclusive (ext : ToolchainRun) (code : String)
    (language : Option String) (b : ResourceBudget) :
    ((encodeOutcome (dispatch ext code language b).1).result = none ∨
      (encodeOutcome (dispatch ext code language b).1).error = none) ∧
    ((dispatch ext code language b).1.status = .SUCCESS →
      (encodeOutcome (dispatch ext code language b).1).error = none) ∧
    ((dispatch ext code language b).1.status ≠ .SUCCESS →
      (encodeOutcome (dispatch ext code language b).1).result = none) := by
  set o := (dispatch ext code language b).1 with ho
  by_cases h : o.status = .SUCCESS <;> simp [encodeOutcome, h]

/-- Witness for C1 at a concrete failing request: the encoded response
carries no `result`. -/
theorem encoder_result_error_exclusive_witness :
    (encodeOutcome
      (dispatch witnessToolchain "x;" (some "custom") witnessBudget).1).result = none :=
  (encoder_result_error_exclusive witnessToolchain "x;" (some "custom")
    witnessBudget).2.2 (by decide)

/-- C2: the possible execution statuses are exactly `PENDING`,
`SUCCESS`, `ERROR`, `TIMEOUT`, `MEMORY_LIMIT`, the possible error types
are exactly `LEXER_ERROR`, `PARSER_ERROR`, `RUNTIME_ERROR`,
`SYSTEM_ERROR`, `API_ERROR`, and every persisted record draws its
`status` and `errorType` from these sets. -/
theorem persisted_enums_exact :
    (∀ s : ExecutionStatus, s ∈ executionStatusValues) ∧
    (∀ e : ErrorType, e ∈ errorTypeValues) ∧
    executionStatusValues.Nodup ∧
    errorTypeValues.Nodup ∧
    (∀ r : ExecutionRecord, r.status ∈ executionStatusValues) ∧
    (∀ l : ErrorLogRecord, l.errorType ∈ errorTypeValues) := by
  refine ⟨fun s => ?_, fun e => ?_, by decide, by decide, fun r => ?_, fun l => ?_⟩
  · cases s <;> simp [executionStatusValues]
  · cases e <;> simp [errorTypeValues]
  · cases h : r.status <;> simp [executionStatusValues]
  · cases h : l.errorType <;> simp [errorTypeValues]

/-- C3: the dispatcher never hands `PENDING` back to the caller, and a
custom-language run whose pipeline stays within the step budget ends in
exactly `SUCCESS` or `ERROR`. -/
theorem dispatch_terminal_status (ext : ToolchainRun) (code : String)
    (language : Option String) (b : ResourceBudget) :
    (dispatch ext code language b).1.status ≠ .PENDING ∧
    (runPipeline code b ≠ .timedOut →
      (dispatch ext code (some "custom") b).1.status = .SUCCESS ∨
      (dispatch ext code (some "custom") b).1.status = .ERROR) := by
  constructor
  · by_cases h1 : language.getD "custom" = "custom"
    · rw [dispatch_custom_branch ext code language b h1]
      exact runCustom_status_ne_pending code b
    · by_cases h2 : language.getD "custom" ∈ supportedLanguageKeys
      · rw [dispatch_external_branch ext code language b h1 h2]
        exact runIsolated_status_ne_pending _ b
      · rw [dispatch_rejected_branch ext code language b h2]
        simp
  · intro h
    rw [dispatch_custom_branch ext code (some "custom") b rfl]
    unfold runCustom
    cases hp : runPipeline code b with
    | runOk out => simp
    | lexFail m => simp
    | parseFail m => simp
    | runFail m => simp
    | timedOut => exact absurd hp h

/-- Witness for C3: a one-statement program inside the budget finishes
with `SUCCESS` or `ERROR`. -/
theorem dispatch_terminal_status_witness :
    (dispatch witnessToolchain "let x = 1;" (some "custom") witnessBudget).1.status
        = .SUCCESS ∨
    (dispatch witnessToolchain "let x = 1;" (some "custom") witnessBudget).1.status
        = .ERROR :=
  (dispatch_terminal_status witnessToolchain "let x = 1;" (some "custom")
    witnessBudget).2 (by decide)

/-- C4: the web collaborator always submits a `POST` to `/compile`
whose body carries the editor code and a language key drawn exactly
from (custom, rust, python, c), and an unset language selector is
treated as `"custom"` both by the dispatcher and by the `executions`
table default. -/
theorem compile_request_shape (s : PageState) :
    (buildCompileRequest s).method = "POST" ∧
    (buildCompileRequest s).path = "/compile" ∧
    (buildCompileRequest s).bodyCode = s.code ∧
    (buildCompileRequest s).bodyLanguage = s.selectedLanguage.keyString ∧
    (∀ k : LanguageKey, k.keyString ∈ supportedLanguageKeys) ∧
    supportedLanguageKeys =
      [LanguageKey.custom.keyString, LanguageKey.rust.keyString,
        LanguageKey.python.keyString, LanguageKey.c.keyString] ∧
    executionLanguageColumn none = "custom" ∧
    (∀ (ext : ToolchainRun) (code : String) (b : ResourceBudget),
      dispatch ext code none b = dispatch ext code (some "custom") b) := by
  refine ⟨rfl, rfl, rfl, rfl, fun k => ?_, by decide, rfl, fun ext code b => rfl⟩
  cases k <;> simp [LanguageKey.keyString, supportedLanguageKeys]

/-- C5: the response always has the `result`/`error`/`execution_time_ms`
shape, and `execution_time_ms` is present exactly when execution was
attempted: present for every supported language selector, absent for a
request rejected before execution. -/
theorem response_time_presence (ext : ToolchainRun) (code : String)
    (language : Option String) (b : ResourceBudget) :
    ((language.getD "custom") ∈ supportedLanguageKeys →
      ((encodeOutcome (dispatch ext code language b).1).execution_time_ms).isSome
        = true) ∧
    ((language.getD "custom") ∉ supportedLanguageKeys →
      (encodeOutcome (dispatch ext code language b).1).execution_time_ms
        = none) := by
  constructor
  · intro hmem
    rw [encodeOutcome_time]
    by_cases h1 : language.getD "custom" = "custom"
    · rw [dispatch_custom_branch ext code language b h1]
      exact runCustom_elapsed_isSome code b
    · rw [dispatch_external_branch ext code language b h1 hmem]
      rw [runIsolated_elapsed]
      rfl
  · intro hmem
    rw [encodeOutcome_time]
    rw [dispatch_rejected_branch ext code language b hmem]

/-- Witness for C5: a custom-language run carries a present
`execution_time_ms`, a rejected `cobol` request carries none. -/
theorem response_time_presence_witness :
    ((encodeOutcome
        (dispatch witnessToolchain "let x = 1;" (some "custom")
          witnessBudget).1).execution_time_ms).isSome = true ∧
    (encodeOutcome
        (dispatch witnessToolchain "let x = 1;" (some "cobol")
          witnessBudget).1).execution_time_ms = none :=
  ⟨(response_time_presence witnessToolchain "let x = 1;" (some "custom")
      witnessBudget).1 (by decide),
   (response_time_presence witnessToolchain "let x = 1;" (some "cobol")
      witnessBudget).2 (by decide)⟩

/-- C6: an unsupported language selector is rejected with status `ERROR`
and error type `API_ERROR`, with no resource allocated and no execution
time spent. -/
theorem dispatch_unsupported_language (ext : ToolchainRun) (code : String)
    (language : Option String) (b : ResourceBudget)
    (h : (language.getD "custom") ∉ supportedLanguageKeys) :
    (dispatch ext code language b).1.status = .ERROR ∧
    (dispatch ext code language b).1.errorType = some .API_ERROR ∧
    (dispatch ext code language b).2 = [] ∧
    (dispatch ext code language b).1.elapsedMillis = none := by
  rw [dispatch_rejected_branch ext code language b h]
  exact ⟨rfl, rfl, rfl, rfl⟩

/-- Witness for C6 at the `cobol` selector of the spec's test list. -/
theorem dispatch_unsupported_language_witness :
    (dispatch witnessToolchain "print 1" (some "cobol") witnessBudget).1.status
        = .ERROR ∧
    (dispatch witnessToolchain "print 1" (some "cobol") witnessBudget).1.errorType
        = some .API_ERROR ∧
    (dispatch witnessToolchain "print 1" (some "cobol") witnessBudget).2 = [] ∧
    (dispatch witnessToolchain "print 1" (some "cobol") witnessBudget).1.elapsedMillis
        = none :=
  dispatch_unsupported_language witnessToolchain "print 1" (some "cobol")
    witnessBudget (by decide)

/-- C7: a resource violation pre-empts every other classification: a
step budget exhausted anywhere in the custom pipeline yields status
`TIMEOUT` whatever the phases would have reported, a memory-ceiling
violation of a supervised subprocess yields `MEMORY_LIMIT`, and a
wall-clock violation without a memory violation yields `TIMEOUT`
whatever the process exit reported. -/
theorem resource_violation_preemption (ext : ToolchainRun) (code : String)
    (b : ResourceBudget) (obs : ToolchainObs) :
    (runPipeline code b = .timedOut →
      (dispatch ext code (some "custom") b).1.status = .TIMEOUT) ∧
    (b.memoryLimitBytes ≤ obs.peakMem →
      (runIsolated obs b).status = .MEMORY_LIMIT) ∧
    (b.timeoutMillis ≤ obs.elapsed → obs.peakMem < b.memoryLimitBytes →
      (runIsolated obs b).status = .TIMEOUT) := by
  refine ⟨fun h => ?_, fun hm => ?_, fun ht hm => ?_⟩
  · rw [dispatch_custom_branch ext code (some "custom") b rfl]
    unfold runCustom
    rw [h]
  · unfold runIsolated
    rw [if_pos hm]
  · unfold runIsolated
    rw [if_neg (by omega), if_pos ht]

/-- Witness for C7: with a zero step budget the source `§` times out —
although with the witness budget the same source is a lexer error — and
concrete subprocess observations over the limits classify as
`MEMORY_LIMIT` and `TIMEOUT`. -/
theorem resource_violation_preemption_witness :
    (dispatch witnessToolchain "§" (some "custom") zeroStepBudget).1.status
        = .TIMEOUT ∧
    (runIsolated ⟨1, 4096, .completed 1 "" "boom"⟩ witnessBudget).status
        = .MEMORY_LIMIT ∧
    (runIsolated ⟨5000, 0, .completed 1 "" "boom"⟩ witnessBudget).status
        = .TIMEOUT ∧
    (dispatch witnessToolchain "§" (some "custom") witnessBudget).1.errorType
        = some .LEXER_ERROR :=
  ⟨(resource_violation_preemption witnessToolchain "§" zeroStepBudget
      ⟨1, 4096, .completed 1 "" "boom"⟩).1 (by decide),
   (resource_violation_preemption witnessToolchain "§" zeroStepBudget
      ⟨1, 4096, .completed 1 "" "boom"⟩).2.1 (by decide),
   (resource_violation_preemption witnessToolchain "§" witnessBudget
      ⟨5000, 0, .completed 1 "" "boom"⟩).2.2 (by decide) (by decide),
   by decide⟩

/-- C8: two identical requests anywhere in a batch produce outcomes with
identical status and error type: no hidden cross-request state affects
the result. -/
theorem batch_idempotence (ext : ToolchainRun) (b : ResourceBudget)
    (code : String) (language : Option String)
    (pre mid post : List (String × Option String)) :
    (batchOutcomeAt ext b
        (pre ++ (code, language) :: (mid ++ (code, language) :: post))
        pre.length).map (fun o => (o.status, o.errorType)) =
    (batchOutcomeAt ext b
        (pre ++ (code, language) :: (mid ++ (code, language) :: post))
        (pre.length + 1 + mid.length)).map (fun o => (o.status, o.errorType)) := by
  have h1 : (pre ++ (code, language) :: (mid ++ (code, language) :: post))[pre.length]?
      = some (code, language) := by
    rw [List.getElem?_append_right le_rfl]
    simp
  have h2 : (pre ++ (code, language) :: (mid ++ (code, language) :: post))[pre.length + 1 + mid.length]?
      = some (code, language) := by
    rw [List.getElem?_append_right (by omega)]
    have hsub : pre.length + 1 + mid.length - pre.length = mid.length + 1 := by omega
    rw [hsub]
    rw [List.getElem?_cons_succ]
    rw [List.getElem?_append_right le_rfl]
    simp
  unfold batchOutcomeAt runBatch
  rw [List.getElem?_map, List.getElem?_map, h1, h2]

/-- C9, counterexample to the claim as stated: the second `OutputPanel`
version tests `error` by truthiness, so the props with loading over, a
non-null but empty error and a non-null output render the Success
block, not the Error block. -/
theorem output_panel_error_precedence_counterexample :
    (⟨some "x", some "", some 5, false⟩ : OutputPanelProps).isLoading = false ∧
    (⟨some "x", some "", some 5, false⟩ : OutputPanelProps).error ≠ none ∧
    (renderOutputPanel2 ⟨some "x", some "", some 5, false⟩).block
      = .successBlock "x" ∧
    (renderOutputPanel2 ⟨some "x", some "", some 5, false⟩).block
      ≠ .errorBlock "" := by
  refine ⟨rfl, by simp, rfl, by simp [renderOutputPanel2, jsTruthyStr]⟩

/-- C9 as amended: with loading over and a non-null error, the first
`OutputPanel` version always shows the error block with the error text
and never the success block, whatever `output` holds; the second
version does the same whenever the error is also non-empty, an empty
error string being falsy in its JSX truthiness test. -/
theorem output_panel_error_precedence (p : OutputPanelProps) (e : String)
    (hl : p.isLoading = false) (he : p.error = some e) :
    ((renderOutputPanel p).block = .errorBlock e ∧
      (∀ t, (renderOutputPanel p).block ≠ .successBlock t)) ∧
    (e ≠ "" →
      (renderOutputPanel2 p).block = .errorBlock e ∧
      (∀ t, (renderOutputPanel2 p).block ≠ .successBlock t)) := by
  constructor
  · unfold renderOutputPanel
    rw [hl, he]
    simp
  · intro hne
    unfold renderOutputPanel2
    rw [hl, he]
    simp [jsTruthyStr, hne]

/-- Witness for C9 at a concrete prop set carrying both an output and a
non-empty error: both panel versions show the error block. -/
theorem output_panel_error_precedence_witness :
    (renderOutputPanel ⟨some "out", some "boom", some 5, false⟩).block
      = .errorBlock "boom" ∧
    (renderOutputPanel2 ⟨some "out", some "boom", some 5, false⟩).block
      = .errorBlock "boom" :=
  ⟨(output_panel_error_precedence ⟨some "out", some "boom", some 5, false⟩
      "boom" rfl rfl).1.1,
   ((output_panel_error_precedence ⟨some "out", some "boom", some 5, false⟩
      "boom" rfl rfl).2 (by simp)).1⟩

/-- C10: a language change replaces the editor contents with the new
language's starter code, clears `output`, `error` and `executionTime`,
and leaves `isLoading` untouched. -/
theorem language_change_resets (s : PageState) (k : LanguageKey) :
    (handleLanguageChange s k).selectedLanguage = k ∧
    (handleLanguageChange s k).code = starterCode k ∧
    (handleLanguageChange s k).output = none ∧
    (handleLanguageChange s k).error = none ∧
    (handleLanguageChange s k).executionTime = none ∧
    (handleLanguageChange s k).isLoading = s.isLoading :=
  ⟨rfl, rfl, rfl, rfl, rfl, rfl⟩
